import Mathlib

/-!
Verification of the PuppyNet agent core against its specification.

The definitions below are a shallow embedding of the Rust sources:
`core/src/app.rs` (peer request handler, node loop, command dispatcher),
`core/src/updater.rs` (staged self-update pipeline) and
`core/src/auth.rs` (password hashing wrappers).  Paths are modelled as
lists of components (the result of canonicalization), file contents as
lists of byte values, and the asynchronous environment (filesystem
results, network results, lock health) as explicit record parameters.
-/

deriving instance DecidableEq for Except

namespace PuppyNet

/-- A canonicalized (symlink-resolved) filesystem path, component-wise. -/
abbrev CanonPath := List String

/-- Access flags, mirroring FLAG_SEARCH / FLAG_READ / FLAG_WRITE from
`core/src/state.rs` (represented as a record of booleans rather than a
bit mask; the bit encoding itself is irrelevant to the checks). -/
structure AccessMask where
  search : Bool
  read : Bool
  write : Bool
deriving DecidableEq, Repr

/-- Mask `a` is a subset of mask `b`: every required flag is granted. -/
def maskLe (a b : AccessMask) : Bool :=
  (!a.search || b.search) && (!a.read || b.read) && (!a.write || b.write)

/-- The `FLAG_READ | FLAG_SEARCH` mask used by ListDir, StatFile,
ReadFile, GetThumbnail and StartScan in `handle_puppy_peer_req`. -/
def maskRS : AccessMask := ⟨true, true, false⟩

/-- The `FLAG_WRITE | FLAG_READ | FLAG_SEARCH` mask used by WriteFile. -/
def maskRWS : AccessMask := ⟨true, true, true⟩

/-- Modelled from the spec: `Permission` from `core/src/state.rs`, which
is not part of the provided sources.  Spec §3: Permission = Owner |
Folder{ path, flags:{search, read, write} }. -/
inductive Permission
  | owner
  | folder (path : CanonPath) (flags : AccessMask)
deriving DecidableEq, Repr

/-- Modelled from the spec: `State::has_fs_access` from
`core/src/state.rs` (not in the provided sources).  Spec §4.1: for each
permission granted to the peer, Owner grants everything; a Folder rule
matches when the canonical path equals the base or is a component-wise
descendant of it, and the required mask must be a subset of the granted
flags; an empty permission set always denies. -/
def has_fs_access (perms : List Permission) (path : CanonPath) (req : AccessMask) : Bool :=
  perms.any fun p =>
    match p with
    | .owner => true
    | .folder base flags => base.isPrefixOf path && maskLe req flags

/-- A filesystem object at a canonical path: a regular file with its
byte contents, or a directory. -/
inductive FsNode
  | file (bytes : List Nat)
  | dir
deriving DecidableEq, Repr

/-- A single chunk returned by `read_file` (`core/src/types.rs`
`FileChunk`): starting offset, payload bytes, end-of-file flag. -/
structure FileChunk where
  offset : Nat
  data : List Nat
  eof : Bool
deriving DecidableEq, Repr

/-- Embedding of `read_file` (`core/src/app.rs` lines 112-142).  The
`node` argument is the result of `File::open` + `metadata` (an `Except`
so that an IO failure propagates with its message).  A directory fails
with "path is a directory"; an offset at or past the end returns an
empty chunk with `eof = true`; otherwise up to `min length remaining`
bytes starting at `offset` are returned and `eof` is set when the read
reaches the end of the file. -/
def read_file (node : Except String FsNode) (offset : Nat) (length : Option Nat) :
    Except String FileChunk :=
  match node with
  | .error e => .error e
  | .ok .dir => .error "path is a directory"
  | .ok (.file bytes) =>
    let fileLen := bytes.length
    if offset ≥ fileLen then
      .ok ⟨offset, [], true⟩
    else
      let remaining := fileLen - offset
      let toRead := match length with
        | some l => min l remaining
        | none => remaining
      let data := (bytes.drop offset).take toRead
      .ok ⟨offset, data, decide (offset + data.length ≥ fileLen)⟩

/-- The client iteration over `read_file` described in spec §4.4: start
at an offset, re-request at `offset + len(data)` until a chunk with
`eof = true` arrives, concatenating the data.  Expressed with explicit
fuel so the definition is total; `none` means the fuel ran out or a
read failed. -/
def readAll (bytes : List Nat) (offset : Nat) (length : Option Nat) (fuel : Nat) :
    Option (List Nat) :=
  match fuel with
  | 0 => none
  | fuel + 1 =>
    match read_file (.ok (.file bytes)) offset length with
    | .error _ => none
    | .ok chunk =>
      if chunk.eof then some chunk.data
      else (readAll bytes (offset + chunk.data.length) length fuel).map (chunk.data ++ ·)

/-- The `PeerReq` tagged union (`core/src/p2p.rs`, reconstructed from
its uses in `core/src/app.rs`).  Payloads that the handler ignores are
omitted; `scanEvent`/`updateEvent` carry whether the event is the
terminal one, which is all the handler inspects. -/
inductive PeerReq
  | listDir (path : String)
  | statFile (path : String)
  | readFile (path : String) (offset : Nat) (length : Option Nat)
  | writeFile (path : String) (offset : Nat) (data : List Nat)
  | listCpus
  | listDisks
  | listInterfaces
  | fileEntries (offset : Nat) (limit : Nat)
  | startScan (id : Nat) (path : String)
  | scanEvent (id : Nat) (finished : Bool)
  | listPermissions
  | authenticate
  | createUser (username : String)
  | createToken (username : String)
  | grantAccess
  | listUsers
  | listTokens
  | revokeToken
  | revokeUser
  | getThumbnail (path : String) (maxWidth : Nat) (maxHeight : Nat)
  | updateSelf (id : Nat) (version : Option String)
  | updateEvent (id : Nat) (terminal : Bool)
deriving DecidableEq, Repr

/-- The `PeerRes` tagged union (`core/src/p2p.rs`).  Payloads the
claims never inspect are collapsed to placeholders. -/
inductive PeerRes
  | dirEntries (entries : List String)
  | fileStat
  | fileChunk (chunk : FileChunk)
  | writeAck
  | cpus
  | disks
  | interfaces
  | fileEntries
  | scanStarted (result : Except String Unit)
  | scanEventAck
  | permissions (perms : List Permission)
  | userCreated (username : String)
  | tokenIssued (username : String)
  | thumbnail
  | updateStarted (result : Except String Unit)
  | updateEventAck
  | error (msg : String)
deriving DecidableEq, Repr

/-- Outcome of the `WriteFile` path-resolution dance (`app.rs` lines
676-717): either a canonical target path, or one of the early error
responses ("Failed to access file: ...", "Invalid path",
"Failed to access parent directory: ...", "Invalid file name"),
abstracted here as the already-formatted response message. -/
inductive WriteCanon
  | ok (p : CanonPath)
  | errResponse (msg : String)
deriving DecidableEq, Repr

/-- The environment a single `handle_puppy_peer_req` call runs in: the
permissions this node granted to the requesting peer, the results of
the filesystem and database operations the handler performs, and the
health of the mutexes it locks. -/
structure PeerEnv where
  /-- permissions granted by this node to the requesting peer
  (`state.has_fs_access` input). -/
  perms : List Permission
  /-- result of `fs::canonicalize` on the request path. -/
  canon : Except String CanonPath
  /-- result of the WriteFile path resolution (exists / parent-join). -/
  writeCanon : WriteCanon
  /-- result of `File::open` + `metadata` at the canonical path. -/
  fsNode : Except String FsNode
  /-- result of `collect_dir_entries`. -/
  dirEntriesResult : Except String (List String)
  /-- result of `fs::metadata` in the StatFile arm. -/
  statResult : Except String Unit
  /-- result of `write_file`. -/
  writeResult : Except String Unit
  /-- result of `generate_thumbnail`. -/
  thumbResult : Except String Unit
  /-- result of `fetch_file_entries`. -/
  fileEntriesResult : Except String Unit
  /-- result of `state.create_user`. -/
  createUserResult : Except String Unit
  /-- whether `local_node_id()` is available (StartScan arm). -/
  nodeIdAvailable : Bool
  /-- whether the named user exists (CreateToken arm). -/
  userExists : Bool
  /-- whether the `state` mutex is poisoned (`lock()` returns Err). -/
  statePoisoned : Bool
  /-- whether the `remote_scans`/`remote_updates` mutexes are poisoned. -/
  mapsPoisoned : Bool
deriving Repr

/-- `App::can_access` (`app.rs` lines 496-501): lock the state and ask
`has_fs_access`; a poisoned lock maps to `false` via `unwrap_or(false)`. -/
def can_access (env : PeerEnv) (path : CanonPath) (access : AccessMask) : Bool :=
  if env.statePoisoned then false else has_fs_access env.perms path access

/-- How one call of `handle_puppy_peer_req` ends: a response value, an
`Err` propagated by `?` (carrying the error message), or a panic
(`todo!()` or `unwrap()` on a poisoned mutex). -/
inductive HandlerOutcome
  | ok (res : PeerRes)
  | internalErr (msg : String)
  | panics
deriving DecidableEq, Repr

/-- Embedding of `App::handle_puppy_peer_req` (`app.rs` lines 569-959),
one arm per `PeerReq` variant, with filesystem/database results drawn
from `env`.  Side effects (spawned scan/update tasks, stream-map
updates) are modelled separately; this function captures the response
value each arm produces. -/
def handle_puppy_peer_req (env : PeerEnv) (req : PeerReq) : HandlerOutcome :=
  match req with
  | .listDir _ =>
    match env.canon with
    | .error e => .ok (.error s!"Failed to access directory: {e}")
    | .ok p =>
      if !can_access env p maskRS then .ok (.error "Access denied")
      else
        match env.dirEntriesResult with
        | .ok entries => .ok (.dirEntries entries)
        | .error e => .internalErr e
  | .statFile _ =>
    match env.canon with
    | .error e => .ok (.error s!"Failed to access file: {e}")
    | .ok p =>
      if !can_access env p maskRS then .ok (.error "Access denied")
      else
        match env.statResult with
        | .ok _ => .ok .fileStat
        | .error e => .internalErr e
  | .readFile _ offset length =>
    match env.canon with
    | .error e => .ok (.error s!"Failed to access file: {e}")
    | .ok p =>
      if !can_access env p maskRS then .ok (.error "Access denied")
      else
        match read_file env.fsNode offset length with
        | .ok chunk => .ok (.fileChunk chunk)
        | .error e => .internalErr e
  | .writeFile _ _ _ =>
    match env.writeCanon with
    | .errResponse m => .ok (.error m)
    | .ok p =>
      if !can_access env p maskRWS then .ok (.error "Access denied")
      else
        match env.writeResult with
        | .ok _ => .ok .writeAck
        | .error e => .internalErr e
  | .listCpus => .ok .cpus
  | .listDisks => .ok .disks
  | .listInterfaces => .ok .interfaces
  | .fileEntries _ _ =>
    match env.fileEntriesResult with
    | .ok _ => .ok .fileEntries
    | .error e => .ok (.error s!"failed to load file entries: {e}")
  | .startScan _ _ =>
    match env.canon with
    | .error e => .ok (.scanStarted (.error s!"failed to access path: {e}"))
    | .ok p =>
      if !can_access env p maskRS then .ok (.scanStarted (.error "Access denied"))
      else if !env.nodeIdAvailable then
        .ok (.scanStarted (.error "failed to determine node id"))
      else .ok (.scanStarted (.ok ()))
  | .scanEvent _ _ =>
    if env.mapsPoisoned then .panics else .ok .scanEventAck
  | .listPermissions =>
    if env.statePoisoned then .ok (.error "State unavailable")
    else .ok (.permissions env.perms)
  | .authenticate => .panics
  | .createUser username =>
    if env.statePoisoned then .panics
    else
      match env.createUserResult with
      | .ok _ => .ok (.userCreated username)
      | .error e => .internalErr e
  | .createToken username =>
    if env.statePoisoned then .panics
    else if !env.userExists then .ok (.error "User does not exist")
    else .ok (.tokenIssued username)
  | .grantAccess => .ok (.error "GrantAccess not implemented")
  | .listUsers => .ok (.error "ListUsers not implemented")
  | .listTokens => .ok (.error "ListTokens not implemented")
  | .revokeToken => .ok (.error "RevokeToken not implemented")
  | .revokeUser => .ok (.error "RevokeUser not implemented")
  | .getThumbnail _ _ _ =>
    match env.canon with
    | .error e => .ok (.error s!"Failed to access file: {e}")
    | .ok p =>
      if !can_access env p maskRS then .ok (.error "Access denied")
      else
        match env.thumbResult with
        | .ok _ => .ok .thumbnail
        | .error e => .ok (.error s!"Failed to generate thumbnail: {e}")
  | .updateSelf _ _ => .ok (.updateStarted (.ok ()))
  | .updateEvent _ _ =>
    if env.mapsPoisoned then .panics else .ok .updateEventAck

/-- The responses sent on the reply channel by `handle_agent_event`
(`app.rs` lines 1302-1320): `Ok(res)` is sent as-is, an `Err` is sent
as `PeerRes::Error("Internal error")`, and a panic sends nothing (the
reply channel is dropped). -/
def responses_sent (outcome : HandlerOutcome) : List PeerRes :=
  match outcome with
  | .ok res => [res]
  | .internalErr _ => [.error "Internal error"]
  | .panics => []

/-- `UpdateProgress` (`core/src/updater.rs` lines 21-39). -/
inductive UpdateProgress
  | fetchingRelease
  | downloading (filename : String)
  | unpacking
  | verifying
  | installing
  | completed (version : String)
  | failed (error : String)
  | alreadyUpToDate (currentVersion : Nat)
deriving DecidableEq, Repr

/-- `UpdateResult` (`updater.rs` lines 42-47). -/
structure UpdateResult where
  success : Bool
  message : String
  newVersion : Option String
deriving DecidableEq, Repr

/-- One release asset as read from the JSON (`asset["name"]`,
`asset["browser_download_url"]`; `none` models a missing or non-string
field). -/
structure Asset where
  name : Option String
  browserDownloadUrl : Option String
deriving DecidableEq, Repr

/-- The fetched release JSON: `tag_name` and the `assets` array
(`none` models `res["assets"]` not being an array). -/
structure Release where
  tagName : Option String
  assets : Option (List Asset)
deriving DecidableEq, Repr

/-- Rust's `str::parse::<u32>()`: an optional leading '+', then one or
more decimal digits, value bounded by `u32::MAX`. -/
def parse_u32 (s : String) : Option Nat :=
  let cs := match s.data with
    | '+' :: rest => rest
    | cs => cs
  if cs.isEmpty then none
  else if cs.all Char.isDigit then
    let n := cs.foldl (fun acc c => acc * 10 + (c.toNat - '0'.toNat)) 0
    if n < 2 ^ 32 then some n else none
  else none

/-- `assets.iter().find(|asset| name.contains(&os_name))`
(`updater.rs` lines 167-173): substring containment on the asset name. -/
def strContains (haystack needle : String) : Bool :=
  (List.range (haystack.length + 1)).any fun i =>
    needle.data.isPrefixOf (haystack.data.drop i)

/-- `select_asset`: the first asset whose name contains the platform
token. -/
def selectAsset (assets : List Asset) (osName : String) : Option Asset :=
  assets.find? fun asset =>
    match asset.name with
    | some n => strContains n osName
    | none => false

/-- Environment of one `update_with_progress` run: results of the
network, filesystem and crypto operations it performs, in program
order. -/
structure UpdateEnv where
  /-- result of `fetch_release`. -/
  fetch : Except String Release
  /-- `std::env::consts::OS` via `get_os_name()`. -/
  osName : String
  /-- result of `download_bin`. -/
  download : Except String Unit
  /-- result of the blocking archive extraction. -/
  unpack : Except String Unit
  /-- whether `app_dir/puppynet[.exe]` exists after extraction. -/
  binExists : Bool
  /-- whether a signature file was found (known names or any `.sig`). -/
  sigExists : Bool
  /-- result of `verify_signature` (`Err` = read/join failure,
  `Ok b` = cryptographic verdict). -/
  verify : Except String Bool
  /-- result of `tokio::fs::copy` into `bin/`. -/
  copyToBin : Except String Unit
  /-- result of removing the staging binary. -/
  removeBin : Except String Unit
  /-- result of removing the staging `.sig`. -/
  removeSig : Except String Unit
  /-- debug rendering of the expected binary path (for the
  "Binary not found" message). -/
  binPathStr : String
  /-- debug rendering of the app-dir listing (for error messages). -/
  dirListingStr : String
deriving Repr

/-- What the updater changed on disk: whether the verified binary was
copied into `bin/`, and whether the staging binary / `.sig` were
deleted. -/
structure UpdateEffects where
  installedToBin : Bool
  removedStagingBin : Bool
  removedStagingSig : Bool
deriving DecidableEq, Repr

/-- No filesystem changes. -/
def noEffects : UpdateEffects := ⟨false, false, false⟩

/-- The "Binary not found" message (`updater.rs` line 274). -/
def binNotFoundMsg (env : UpdateEnv) : String :=
  s!"Binary not found: {env.binPathStr}. Directory contains: {env.dirListingStr}"

/-- The "Signature file not found" message (`updater.rs` lines 300-303). -/
def sigNotFoundMsg (env : UpdateEnv) : String :=
  s!"Signature file not found. Tried: [\x22puppynet.sig\x22, \x22puppynet.exe.sig\x22], also searched for any .sig file. Directory contains: {env.dirListingStr}"

/-- Embedding of `update_with_progress` (`updater.rs` lines 117-340).
Returns the list of `UpdateProgress` events passed to the callback (in
order), the function's return value, and the filesystem effects. -/
def update_with_progress (version : Option String) (currentVersion : Nat)
    (env : UpdateEnv) :
    List UpdateProgress × Except String UpdateResult × UpdateEffects :=
  let ev0 : List UpdateProgress := [.fetchingRelease]
  match env.fetch with
  | .error e => (ev0, .error e, noEffects)
  | .ok rel =>
    match rel.tagName with
    | none => (ev0, .error "release response missing tag_name", noEffects)
    | some tag =>
      let shortCircuit : Bool :=
        version.isNone &&
          (match parse_u32 tag with
           | some n => decide (n ≤ currentVersion)
           | none => false)
      if shortCircuit then
        (ev0 ++ [.alreadyUpToDate currentVersion],
         .ok ⟨true, "Already up to date", none⟩, noEffects)
      else
        match rel.assets with
        | none => (ev0, .error "no assets found", noEffects)
        | some assets =>
          match selectAsset assets env.osName with
          | none => (ev0, .error s!"no asset found for os: {env.osName}", noEffects)
          | some asset =>
            match asset.browserDownloadUrl with
            | none => (ev0, .error "no download url found", noEffects)
            | some _url =>
              let filename := asset.name.getD "downloaded_binary"
              let ev1 := ev0 ++ [.downloading filename]
              match env.download with
              | .error e => (ev1, .error e, noEffects)
              | .ok _ =>
                let ev2 := ev1 ++ [.unpacking]
                match env.unpack with
                | .error e => (ev2, .error e, noEffects)
                | .ok _ =>
                  let ev3 := ev2 ++ [.verifying]
                  if !env.binExists then
                    (ev3 ++ [.failed (binNotFoundMsg env)],
                     .error (binNotFoundMsg env), noEffects)
                  else if !env.sigExists then
                    (ev3 ++ [.failed (sigNotFoundMsg env)],
                     .error (sigNotFoundMsg env), noEffects)
                  else
                    match env.verify with
                    | .error e => (ev3, .error e, noEffects)
                    | .ok false =>
                      (ev3 ++ [.failed "Signature verification failed"],
                       .error "Signature verification failed", noEffects)
                    | .ok true =>
                      let ev4 := ev3 ++ [.installing]
                      match env.copyToBin with
                      | .error e => (ev4, .error e, noEffects)
                      | .ok _ =>
                        match env.removeBin with
                        | .error e => (ev4, .error e, ⟨true, false, false⟩)
                        | .ok _ =>
                          match env.removeSig with
                          | .error e => (ev4, .error e, ⟨true, true, false⟩)
                          | .ok _ =>
                            (ev4 ++ [.completed tag],
                             .ok ⟨true, s!"Updated to version {tag}", some tag⟩,
                             ⟨true, true, true⟩)

/-- Modelled from the spec: the `ScanProgress` payload emitted by
`scan::scan_with_progress` (`core/src/scan.rs`, not in the provided
sources).  Spec §4.3: (processed, total, inserted_count, updated_count,
removed_count). -/
structure ScanProgress where
  processed : Nat
  total : Nat
  insertedCount : Nat
  updatedCount : Nat
  removedCount : Nat
deriving DecidableEq, Repr

/-- Modelled from the spec: the scan statistics carried by
`Finished(Ok(stats))` (spec §4.3: insert/update/remove counts and total
durations). -/
structure ScanStats where
  inserted : Nat
  updated : Nat
  removed : Nat
  durationMs : Nat
deriving DecidableEq, Repr

/-- `ScanEvent` (`core/src/scan.rs`): a progress report or the terminal
result. -/
inductive ScanEvent
  | progress (p : ScanProgress)
  | finished (r : Except String ScanStats)
deriving DecidableEq, Repr

/-- Is this event the terminal `Finished`? -/
def ScanEvent.isFinished : ScanEvent → Bool
  | .finished _ => true
  | .progress _ => false

/-- The event stream a `Command::Scan` initiator receives (`app.rs`
lines 1604-1630): the worker's progress callback wraps every emission
in `ScanEvent::Progress`, and after `scan_with_progress` returns (or
the db lock is poisoned) exactly one `ScanEvent::Finished` carrying the
result is sent.  `ps` is the (arbitrary) list of progress payloads the
scan engine emitted and `result` its return value, so the stream shape
holds for every behaviour of `scan_with_progress`. -/
def scan_event_stream (ps : List ScanProgress) (result : Except String ScanStats) :
    List ScanEvent :=
  ps.map ScanEvent.progress ++ [ScanEvent.finished result]

/-- The commands of `App::handle_cmd` that park a waiter in
`pending_requests` (`app.rs` lines 1463-1693). -/
inductive ParkCmd
  | listDir
  | listCpus
  | listDisks
  | listInterfaces
  | listFileEntries
  | listPermissions
  | readFile
  | getThumbnail
  | remoteScan
  | remoteUpdate
deriving DecidableEq, Repr

/-- `HashMap::insert` on an association list: returns the previous
value for the key (if any) and the updated map. -/
def assocInsert (m : List (Nat × Nat)) (k v : Nat) : Option Nat × List (Nat × Nat) :=
  match m with
  | [] => (none, [(k, v)])
  | (k', v') :: rest =>
    if k' = k then (some v', (k, v) :: rest)
    else
      let (prev, rest') := assocInsert rest k v
      (prev, (k', v') :: rest')

/-- `HashMap` lookup on the association-list model. -/
def assocLookup (m : List (Nat × Nat)) (k : Nat) : Option Nat :=
  match m with
  | [] => none
  | (k', v') :: rest => if k' = k then some v' else assocLookup rest k

/-- Parking a waiter under a request id, per command (`app.rs`,
`handle_cmd`).  Waiters are identified by opaque numbers.  Returns the
updated `pending_requests` map and the list of (waiter, message)
failure notifications delivered to previously parked waiters.  Only
the `ListDir` (lines 1487-1492) and `ListPermissions` (lines 1580-1585)
arms inspect `insert`'s return value and fail the displaced waiter; the
other eight arms discard it. -/
def park_waiter (cmd : ParkCmd) (pending : List (Nat × Nat)) (reqId waiter : Nat) :
    List (Nat × Nat) × List (Nat × String) :=
  match cmd with
  | .listDir =>
    let (prev, m) := assocInsert pending reqId waiter
    match prev with
    | some p => (m, [(p, "pending ListDir request was replaced")])
    | none => (m, [])
  | .listPermissions =>
    let (prev, m) := assocInsert pending reqId waiter
    match prev with
    | some p => (m, [(p, "pending ListPermissions request was replaced")])
    | none => (m, [])
  | .listCpus => ((assocInsert pending reqId waiter).2, [])
  | .listDisks => ((assocInsert pending reqId waiter).2, [])
  | .listInterfaces => ((assocInsert pending reqId waiter).2, [])
  | .listFileEntries => ((assocInsert pending reqId waiter).2, [])
  | .readFile => ((assocInsert pending reqId waiter).2, [])
  | .getThumbnail => ((assocInsert pending reqId waiter).2, [])
  | .remoteScan => ((assocInsert pending reqId waiter).2, [])
  | .remoteUpdate => ((assocInsert pending reqId waiter).2, [])

/-- An abstract password-hashing scheme: `digest password salt` is the
raw Argon2 output encoded in the hash string.  The Argon2 computation
itself lives in the external `argon2` crate; what `core/src/auth.rs`
relies on is the PHC round-trip modelled here: the produced string
embeds the salt, and verification re-derives the digest from the
password and the embedded salt and compares. -/
structure HashScheme where
  digest : String → String → String

/-- The PHC prefix of the produced hash string (algorithm id and
parameters, constant for `Argon2::default()`). -/
def phcPrefix : String := "$argon2id$v=19$m=19456,t=2,p=1$"

/-- `hash_password` (`core/src/auth.rs` lines 19-25): hash the password
with a salt and render the PHC string `prefix ++ salt ++ "$" ++ digest`.
The salt is a parameter here; the source draws it from `OsRng`. -/
def hash_password (scheme : HashScheme) (password salt : String) : String :=
  phcPrefix ++ salt ++ "$" ++ scheme.digest password salt

/-- Parse a PHC hash string back into (salt, digest): check the
constant prefix, then split the remainder at the first '$'. -/
def parse_phc (hash : String) : Option (String × String) :=
  if phcPrefix.data.isPrefixOf hash.data then
    let rest := hash.data.drop phcPrefix.length
    let salt := rest.takeWhile (fun c => c ≠ '$')
    match rest.dropWhile (fun c => c ≠ '$') with
    | '$' :: digest => some (⟨salt⟩, ⟨digest⟩)
    | _ => none
  else none

/-- `verify_password` (`auth.rs` lines 27-32): parse the PHC string
(failure is an `Err`), recompute the digest of the candidate password
with the embedded salt, and compare. -/
def verify_password (scheme : HashScheme) (password hash : String) :
    Except String Bool :=
  match parse_phc hash with
  | none => .error "invalid password hash"
  | some (salt, digest) => .ok (scheme.digest password salt == digest)

/-- The strict stage chains of spec §4.6, for a given download
filename `f`, release tag and current version: every prefix of
{Fetching → Downloading → Unpacking → Verifying → Installing →
Completed}, plus the AlreadyUpToDate short-circuit. -/
def stagePrefixes (f tag : String) (cv : Nat) : List (List UpdateProgress) :=
  [[.fetchingRelease],
   [.fetchingRelease, .alreadyUpToDate cv],
   [.fetchingRelease, .downloading f],
   [.fetchingRelease, .downloading f, .unpacking],
   [.fetchingRelease, .downloading f, .unpacking, .verifying],
   [.fetchingRelease, .downloading f, .unpacking, .verifying, .installing],
   [.fetchingRelease, .downloading f, .unpacking, .verifying, .installing,
    .completed tag]]

/-- A progress trace respecting the stage order: either a stage prefix,
or the prefix ending in `Verifying` terminated by a single `Failed`
event. -/
def ValidUpdateTrace (cv : Nat) (t : List UpdateProgress) : Prop :=
  ∃ f tag, t ∈ stagePrefixes f tag cv ∨
    ∃ e, t = [.fetchingRelease, .downloading f, .unpacking, .verifying, .failed e]

/-- A concrete updater environment: latest release tagged "42" with a
linux asset, every operation succeeding, signature valid. -/
def envUpdateOk : UpdateEnv where
  fetch := .ok ⟨some "42", some [⟨some "puppynet-linux.tar.gz", some "https://example/dl"⟩]⟩
  osName := "linux"
  download := .ok ()
  unpack := .ok ()
  binExists := true
  sigExists := true
  verify := .ok true
  copyToBin := .ok ()
  removeBin := .ok ()
  removeSig := .ok ()
  binPathStr := "/home/u/.puppynet/puppynet"
  dirListingStr := "[puppynet, puppynet.sig]"

/-- The same environment with a failing signature verification. -/
def envUpdateSigFail : UpdateEnv := { envUpdateOk with verify := .ok false }

/-- The same environment with a failing download. -/
def envUpdateDlFail : UpdateEnv := { envUpdateOk with download := .error "network down" }

/-- A concrete handler environment for a peer with an empty permission
set: healthy locks, canonicalization succeeding at `["srv", "data"]`,
the target being a directory, every auxiliary operation succeeding. -/
def envNoPerms : PeerEnv where
  perms := []
  canon := .ok ["srv", "data"]
  writeCanon := .ok ["srv", "data"]
  fsNode := .ok .dir
  dirEntriesResult := .ok []
  statResult := .ok ()
  writeResult := .ok ()
  thumbResult := .ok ()
  fileEntriesResult := .ok ()
  createUserResult := .ok ()
  nodeIdAvailable := true
  userExists := true
  statePoisoned := false
  mapsPoisoned := false

/-- The same environment for a peer holding the `Owner` permission. -/
def envOwner : PeerEnv := { envNoPerms with perms := [.owner] }

/-- The same environment for a peer granted only search|read on the
target folder (a read-only share): the `search|read` mask is granted,
the `search|read|write` mask is denied. -/
def envReadOnly : PeerEnv :=
  { envNoPerms with perms := [.folder ["srv", "data"] ⟨true, true, false⟩] }

/-! ## Helper lemmas -/

theorem maskLe_RWS_imp_RS (b : AccessMask) (h : maskLe maskRWS b = true) :
    maskLe maskRS b = true := by
  rcases b with ⟨s, r, w⟩
  cases s <;> cases r <;> cases w <;> simp_all [maskLe, maskRS, maskRWS]

theorem has_fs_access_RWS_imp_RS (perms : List Permission) (p : CanonPath)
    (h : has_fs_access perms p maskRWS = true) : has_fs_access perms p maskRS = true := by
  simp only [has_fs_access, List.any_eq_true] at h ⊢
  obtain ⟨perm, hmem, hperm⟩ := h
  refine ⟨perm, hmem, ?_⟩
  cases perm with
  | owner => rfl
  | folder base flags =>
    simp only [Bool.and_eq_true] at hperm ⊢
    exact ⟨hperm.1, maskLe_RWS_imp_RS flags hperm.2⟩

theorem can_access_RWS_false (env : PeerEnv) (p : CanonPath)
    (h : can_access env p maskRS = false) : can_access env p maskRWS = false := by
  unfold can_access at h ⊢
  cases hsp : env.statePoisoned with
  | true => simp [hsp]
  | false =>
    rw [hsp] at h
    simp only [if_false, Bool.false_eq_true] at h ⊢
    cases hx : has_fs_access env.perms p maskRWS with
    | false => rfl
    | true => rw [has_fs_access_RWS_imp_RS env.perms p hx] at h; exact h

theorem assocInsert_fst (m : List (Nat × Nat)) (k v : Nat) :
    (assocInsert m k v).1 = assocLookup m k := by
  induction m with
  | nil => rfl
  | cons kv rest ih =>
    obtain ⟨k', v'⟩ := kv
    by_cases h : k' = k <;> simp [assocInsert, assocLookup, h, ih]

theorem takeWhile_no_dollar (s d : List Char) (h : '$' ∉ s) :
    (s ++ '$' :: d).takeWhile (fun c => c ≠ '$') = s := by
  induction s with
  | nil => simp [List.takeWhile]
  | cons c cs ih =>
    have hc : c ≠ '$' := fun hc => h (hc ▸ List.mem_cons_self c cs)
    have hcs : '$' ∉ cs := fun hm => h (List.mem_cons_of_mem c hm)
    rw [List.cons_append, List.takeWhile_cons_of_pos (by simp [hc]), ih hcs]

theorem dropWhile_no_dollar (s d : List Char) (h : '$' ∉ s) :
    (s ++ '$' :: d).dropWhile (fun c => c ≠ '$') = '$' :: d := by
  induction s with
  | nil => simp [List.dropWhile]
  | cons c cs ih =>
    have hc : c ≠ '$' := fun hc => h (hc ▸ List.mem_cons_self c cs)
    have hcs : '$' ∉ cs := fun hm => h (List.mem_cons_of_mem c hm)
    rw [List.cons_append, List.dropWhile_cons_of_pos (by simp [hc]), ih hcs]

theorem parse_phc_hash_password (scheme : HashScheme) (password salt : String)
    (h : '$' ∉ salt.data) :
    parse_phc (hash_password scheme password salt) =
      some (salt, scheme.digest password salt) := by
  have hdata : (hash_password scheme password salt).data =
      phcPrefix.data ++ (salt.data ++ '$' :: (scheme.digest password salt).data) := by
    simp [hash_password, String.data_append]
  have hpre : phcPrefix.data.isPrefixOf
      (phcPrefix.data ++ (salt.data ++ '$' :: (scheme.digest password salt).data)) = true := by
    simp [List.isPrefixOf_iff_prefix]
  have hdrop : (phcPrefix.data ++
      (salt.data ++ '$' :: (scheme.digest password salt).data)).drop phcPrefix.length =
      salt.data ++ '$' :: (scheme.digest password salt).data := by
    rw [show phcPrefix.length = phcPrefix.data.length from rfl]
    exact List.drop_left _ _
  simp only [parse_phc, hdata, hpre, if_true, hdrop,
    takeWhile_no_dollar _ _ h, dropWhile_no_dollar _ _ h]

/-! ## Claim theorems -/

/-- Claim C8: for every scan started by a `Scan` command (and the
`StartScan` request path, which feeds the same worker wiring), the
event stream delivered to the initiator contains exactly one `Finished`
event, every `Progress` event precedes it, and no event follows it; the
terminal `Finished` carries the worker's result (`Ok(stats)` on
success, `Err(msg)` on any IO/db error).  Quantified over every
possible behaviour (`ps`, `result`) of `scan_with_progress`, whose
progress callback can only emit `Progress` events. -/
theorem scan_stream_exactly_one_finished (ps : List ScanProgress)
    (result : Except String ScanStats) :
    (scan_event_stream ps result).countP ScanEvent.isFinished = 1 ∧
    (scan_event_stream ps result).getLast? = some (.finished result) ∧
    ∀ e ∈ (scan_event_stream ps result).dropLast, e.isFinished = false := by
  refine ⟨?_, ?_, ?_⟩
  · induction ps with
    | nil => simp [scan_event_stream, List.countP_cons, ScanEvent.isFinished]
    | cons q rest ih =>
      simp only [scan_event_stream, List.map_cons, List.cons_append, List.countP_cons,
        ScanEvent.isFinished, cond_false, Nat.add_zero]
      exact ih
  · simp [scan_event_stream, List.getLast?_concat]
  · intro e he
    rw [scan_event_stream, List.dropLast_concat] at he
    obtain ⟨q, _, rfl⟩ := List.mem_map.mp he
    rfl

/-- Claim C9 (counterexample): a `ListCpus` command whose transport
request id collides with a parked waiter silently overwrites the prior
waiter — the prior waiter (7) is present under id 1, yet no failure
notification is produced. -/
theorem park_waiter_listCpus_drops_prior :
    assocLookup [(1, 7)] 1 = some 7 ∧
    park_waiter .listCpus [(1, 7)] 1 8 = ([(1, 8)], []) := by decide

/-- Claim C9 (amended): when the transport returns a request id that is
already parked, only the `ListDir` and `ListPermissions` commands fail
the prior waiter with a message mentioning "replaced" before inserting
the new one; the other eight waiter-parking commands (ListCpus,
ListDisks, ListInterfaces, ListFileEntries, ReadFile, GetThumbnail,
RemoteScan, RemoteUpdate) overwrite the prior waiter silently. -/
theorem park_waiter_prior_failures (cmd : ParkCmd) (pending : List (Nat × Nat))
    (reqId waiter p : Nat) (hprev : assocLookup pending reqId = some p) :
    (cmd = .listDir →
      (park_waiter cmd pending reqId waiter).2 =
        [(p, "pending ListDir request was replaced")]) ∧
    (cmd = .listPermissions →
      (park_waiter cmd pending reqId waiter).2 =
        [(p, "pending ListPermissions request was replaced")]) ∧
    strContains "pending ListDir request was replaced" "replaced" = true ∧
    strContains "pending ListPermissions request was replaced" "replaced" = true ∧
    (cmd ≠ .listDir → cmd ≠ .listPermissions →
      (park_waiter cmd pending reqId waiter).2 = []) := by
  rcases hins : assocInsert pending reqId waiter with ⟨prev, m⟩
  have hp : prev = some p := by
    have h2 := assocInsert_fst pending reqId waiter
    rw [hins] at h2
    exact h2.trans hprev
  subst hp
  refine ⟨?_, ?_, by decide, by decide, ?_⟩
  · rintro rfl
    simp [park_waiter, hins]
  · rintro rfl
    simp [park_waiter, hins]
  · intro h1 h2
    cases cmd <;> simp_all [park_waiter, hins]

/-- Claim C9 (witness): instantiating the amended theorem at a
concrete collision. -/
theorem park_waiter_prior_failures_witness :
    assocLookup [(1, 7)] 1 = some 7 ∧
    (park_waiter .listDir [(1, 7)] 1 8).2 =
      [(7, "pending ListDir request was replaced")] :=
  ⟨by decide, (park_waiter_prior_failures .listDir [(1, 7)] 1 8 7 (by decide)).1 rfl⟩

/-- Claim C10: verifying a password against the hash produced by
`hash_password` succeeds (`Ok(true)`), and hashing the same password
with two distinct (fresh random) salts yields distinct hash strings,
both of which still verify.  The Argon2 digest itself (external
`argon2` crate) is abstracted as `scheme.digest`; the salts must not
contain the PHC separator '$', as guaranteed by `SaltString::generate`. -/
theorem hash_password_verify_roundtrip (scheme : HashScheme) (password s₁ s₂ : String)
    (h1 : '$' ∉ s₁.data) (h2 : '$' ∉ s₂.data) (hne : s₁ ≠ s₂) :
    verify_password scheme password (hash_password scheme password s₁) = .ok true ∧
    verify_password scheme password (hash_password scheme password s₂) = .ok true ∧
    hash_password scheme password s₁ ≠ hash_password scheme password s₂ := by
  have e1 := parse_phc_hash_password scheme password s₁ h1
  have e2 := parse_phc_hash_password scheme password s₂ h2
  refine ⟨?_, ?_, ?_⟩
  · simp [verify_password, e1]
  · simp [verify_password, e2]
  · intro hcontra
    rw [hcontra, e2] at e1
    injection e1 with epair
    exact hne (congrArg Prod.fst epair).symm

/-- Claim C10 (witness): a concrete scheme and two concrete salts. -/
theorem hash_password_verify_roundtrip_witness :
    ("s1" : String) ≠ "s2" ∧
    verify_password ⟨fun _ _ => "D"⟩ "pw"
      (hash_password ⟨fun _ _ => "D"⟩ "pw" "s1") = .ok true ∧
    hash_password ⟨fun _ _ => "D"⟩ "pw" "s1" ≠
      hash_password ⟨fun _ _ => "D"⟩ "pw" "s2" :=
  ⟨by decide,
   (hash_password_verify_roundtrip ⟨fun _ _ => "D"⟩ "pw" "s1" "s2"
     (by decide) (by decide) (by decide)).1,
   (hash_password_verify_roundtrip ⟨fun _ _ => "D"⟩ "pw" "s1" "s2"
     (by decide) (by decide) (by decide)).2.2⟩

/-- Claim C1 (counterexample): a peer with an empty permission set
sending `StartScan` on a canonicalizable path is denied, but the peer
response is `ScanStarted(Err("Access denied"))`, not
`PeerRes::Error("Access denied")` as the claim states. -/
theorem startScan_denial_is_scanStarted :
    handle_puppy_peer_req envNoPerms (.startScan 1 "/srv/data") =
      .ok (.scanStarted (.error "Access denied")) ∧
    handle_puppy_peer_req envNoPerms (.startScan 1 "/srv/data") ≠
      .ok (.error "Access denied") := by decide

/-- Claim C1 (amended): for every filesystem `PeerReq` whose path
canonicalizes, if the permission check denies the mask that request
requires — `search|read` for ListDir, StatFile, ReadFile, GetThumbnail
and StartScan; `search|read|write` for WriteFile — the peer response is
`PeerRes::Error("Access denied")` for ListDir, StatFile, ReadFile,
GetThumbnail and WriteFile, and `ScanStarted(Err("Access denied"))`
for StartScan; a peer with an empty permission set is always denied.
Each denial is concluded from denial of its own required mask, so the
WriteFile conjunct covers a peer granted `search|read` but denied
`write`. -/
theorem fs_request_denial (env : PeerEnv) (p : CanonPath) (path : String)
    (offset : Nat) (length : Option Nat) (data : List Nat) (id mw mh : Nat)
    (hcanon : env.canon = .ok p) (hwcanon : env.writeCanon = .ok p) :
    (can_access env p maskRS = false →
      handle_puppy_peer_req env (.listDir path) = .ok (.error "Access denied") ∧
      handle_puppy_peer_req env (.statFile path) = .ok (.error "Access denied") ∧
      handle_puppy_peer_req env (.readFile path offset length) =
        .ok (.error "Access denied") ∧
      handle_puppy_peer_req env (.getThumbnail path mw mh) =
        .ok (.error "Access denied") ∧
      handle_puppy_peer_req env (.startScan id path) =
        .ok (.scanStarted (.error "Access denied"))) ∧
    (can_access env p maskRWS = false →
      handle_puppy_peer_req env (.writeFile path offset data) =
        .ok (.error "Access denied")) ∧
    (∀ q m, has_fs_access [] q m = false) := by
  refine ⟨fun hdeny => ?_, fun hdenyW => ?_, fun q m => by simp [has_fs_access]⟩
  · refine ⟨?_, ?_, ?_, ?_, ?_⟩ <;> simp [handle_puppy_peer_req, hcanon, hdeny]
  · simp [handle_puppy_peer_req, hwcanon, hdenyW]

/-- Claim C1 (witness): a read-only peer — granted `search|read` on the
folder but denied the `search|read|write` mask — has its WriteFile
request denied with `Error("Access denied")`. -/
theorem fs_request_denial_witness :
    can_access envReadOnly ["srv", "data"] maskRS = true ∧
    can_access envReadOnly ["srv", "data"] maskRWS = false ∧
    handle_puppy_peer_req envReadOnly (.writeFile "/srv/data" 0 []) =
      .ok (.error "Access denied") :=
  ⟨by decide, by decide,
   (fs_request_denial envReadOnly ["srv", "data"] "/srv/data" 0 none [] 1 2 3
     rfl rfl).2.1 (by decide)⟩

/-- The handler never panics on a healthy-mutex environment, except on
`Authenticate` (whose arm is `todo!()`). -/
theorem handler_no_panics (env : PeerEnv) (req : PeerReq)
    (hstate : env.statePoisoned = false) (hmaps : env.mapsPoisoned = false)
    (hauth : req ≠ .authenticate) :
    handle_puppy_peer_req env req ≠ .panics := by
  cases req <;>
    simp [handle_puppy_peer_req, hstate, hmaps] <;>
    (repeat' split) <;> simp_all

/-- Claim C2 (counterexample): an incoming `Authenticate` request on a
healthy node receives no response at all — the `todo!()` arm panics and
the reply channel is dropped — contradicting "exactly one PeerRes ...
quantified over every PeerReq variant, including Authenticate". -/
theorem authenticate_drops_reply_channel :
    envNoPerms.statePoisoned = false ∧
    handle_puppy_peer_req envNoPerms .authenticate = .panics ∧
    responses_sent (handle_puppy_peer_req envNoPerms .authenticate) = [] := by decide

/-- Claim C2 (amended): for every incoming `PeerReq` other than
`Authenticate` (whose arm is an unimplemented `todo!()` that panics and
drops the reply channel), and with no poisoned mutex, exactly one
`PeerRes` is sent back on the reply channel; when the handler returns
an internal error the response sent is `PeerRes::Error("Internal
error")`. -/
theorem every_request_one_response (env : PeerEnv) (req : PeerReq)
    (hstate : env.statePoisoned = false) (hmaps : env.mapsPoisoned = false)
    (hauth : req ≠ .authenticate) :
    (responses_sent (handle_puppy_peer_req env req)).length = 1 ∧
    ∀ e, handle_puppy_peer_req env req = .internalErr e →
      responses_sent (handle_puppy_peer_req env req) = [.error "Internal error"] := by
  have hnp := handler_no_panics env req hstate hmaps hauth
  constructor
  · cases h : handle_puppy_peer_req env req with
    | ok r => simp [responses_sent]
    | internalErr e => simp [responses_sent]
    | panics => exact absurd h hnp
  · intro e he
    rw [he]
    rfl

/-- Claim C2 (witness): a ListCpus request gets exactly one response. -/
theorem every_request_one_response_witness :
    (responses_sent (handle_puppy_peer_req envNoPerms .listCpus)).length = 1 :=
  (every_request_one_response envNoPerms .listCpus rfl rfl (by decide)).1

/-- Claim C4 (counterexample): a `ReadFile` request on a directory (by
an Owner-permitted peer) is answered with
`PeerRes::Error("Internal error")`, not with an error carrying the
"path is a directory" cause: the handler propagates the error with `?`
and `handle_agent_event` replaces it. -/
theorem read_dir_cause_not_surfaced :
    responses_sent (handle_puppy_peer_req envOwner (.readFile "/srv/data" 0 none)) =
      [.error "Internal error"] ∧
    responses_sent (handle_puppy_peer_req envOwner (.readFile "/srv/data" 0 none)) ≠
      [.error "path is a directory"] := by decide

/-- Claim C4 (amended): for every path that canonicalizes to a
directory, a permitted `ReadFile` request fails inside `read_file` with
the message "path is a directory"; the handler propagates that error,
so the caller receives `PeerRes::Error("Internal error")` (the cause is
not forwarded), and no `FileChunk` is returned. -/
theorem read_file_on_directory_internal_error (env : PeerEnv) (p : CanonPath)
    (path : String) (offset : Nat) (length : Option Nat)
    (hcanon : env.canon = .ok p) (hacc : can_access env p maskRS = true)
    (hnode : env.fsNode = .ok .dir) :
    handle_puppy_peer_req env (.readFile path offset length) =
      .internalErr "path is a directory" ∧
    responses_sent (handle_puppy_peer_req env (.readFile path offset length)) =
      [.error "Internal error"] := by
  have h1 : handle_puppy_peer_req env (.readFile path offset length) =
      .internalErr "path is a directory" := by
    simp [handle_puppy_peer_req, hcanon, hacc, hnode, read_file]
  exact ⟨h1, by rw [h1]; rfl⟩

/-- Claim C4 (witness): the Owner environment with a directory target. -/
theorem read_file_on_directory_internal_error_witness :
    can_access envOwner ["srv", "data"] maskRS = true ∧
    handle_puppy_peer_req envOwner (.readFile "/srv/data" 0 none) =
      .internalErr "path is a directory" :=
  ⟨by decide,
   (read_file_on_directory_internal_error envOwner ["srv", "data"] "/srv/data" 0 none
     rfl (by decide) rfl).1⟩

/-- Closed form of `read_file` on a regular file with a requested
length. -/
theorem read_file_spec (bytes : List Nat) (offset : Nat) (l : Nat) :
    read_file (.ok (.file bytes)) offset (some l) =
      if offset ≥ bytes.length then .ok ⟨offset, [], true⟩
      else .ok ⟨offset, (bytes.drop offset).take (min l (bytes.length - offset)),
        decide (offset + min l (bytes.length - offset) ≥ bytes.length)⟩ := by
  simp only [read_file]
  split
  · rfl
  · have hlen : ((bytes.drop offset).take (min l (bytes.length - offset))).length =
        min l (bytes.length - offset) := by
      rw [List.length_take, List.length_drop]
      omega
    rw [hlen]

/-- The client iteration reconstructs the tail of the file from any
starting offset, given enough fuel and a positive chunk length. -/
theorem readAll_complete (bytes : List Nat) (l : Nat) (hl : 0 < l) :
    ∀ fuel offset, bytes.length - offset < fuel →
      readAll bytes offset (some l) fuel = some (bytes.drop offset) := by
  intro fuel
  induction fuel with
  | zero => intro offset h; exact absurd h (by omega)
  | succ fuel ih =>
    intro offset h
    rw [readAll, read_file_spec]
    by_cases hoff : offset ≥ bytes.length
    · rw [if_pos hoff]
      simp [List.drop_eq_nil_of_le hoff]
    · rw [if_neg hoff]
      push_neg at hoff
      by_cases heof : offset + min l (bytes.length - offset) ≥ bytes.length
      · have hdata : (bytes.drop offset).take (min l (bytes.length - offset)) =
            bytes.drop offset := by
          apply List.take_of_length_le
          rw [List.length_drop]
          omega
        simp only [decide_eq_true heof, if_true, hdata]
      · have ht1 : 1 ≤ min l (bytes.length - offset) := by omega
        have hdlen : ((bytes.drop offset).take (min l (bytes.length - offset))).length =
            min l (bytes.length - offset) := by
          rw [List.length_take, List.length_drop]
          omega
        simp only [decide_eq_false heof, Bool.false_eq_true, if_false, hdlen]
        rw [ih (offset + min l (bytes.length - offset)) (by omega)]
        simp only [Option.map_some']
        congr 1
        have hdd : bytes.drop (offset + min l (bytes.length - offset)) =
            (bytes.drop offset).drop (min l (bytes.length - offset)) := by
          rw [List.drop_drop, Nat.add_comm]
        rw [hdd]
        exact List.take_append_drop _ _

/-- Claim C3: iterating `ReadFile` from offset 0 with a positive
requested length `l`, re-requesting at `offset + len(data)` until a
chunk with `eof = true` arrives, reconstructs the file bytes exactly
(so the total number of bytes equals the file size); a read at an
offset at or past the file size returns an empty chunk with
`eof = true`; and each call returns a single chunk whose data is at
most the requested length.  (With `length = None` a single call
returns the whole remainder.) -/
theorem read_file_chunked_complete (bytes : List Nat) (l : Nat) (offset : Nat)
    (hl : 0 < l) :
    readAll bytes 0 (some l) (bytes.length + 1) = some bytes ∧
    readAll bytes 0 none (bytes.length + 1) = some bytes ∧
    (offset ≥ bytes.length →
      read_file (.ok (.file bytes)) offset (some l) = .ok ⟨offset, [], true⟩) ∧
    (∀ chunk, read_file (.ok (.file bytes)) offset (some l) = .ok chunk →
      chunk.data.length ≤ l) ∧
    (∀ out, readAll bytes 0 (some l) (bytes.length + 1) = some out →
      out.length = bytes.length) := by
  have hmain : readAll bytes 0 (some l) (bytes.length + 1) = some bytes := by
    have := readAll_complete bytes l hl (bytes.length + 1) 0 (by omega)
    simpa using this
  refine ⟨hmain, ?_, ?_, ?_, ?_⟩
  · rw [readAll]
    simp only [read_file]
    by_cases h0 : (0 : Nat) ≥ bytes.length
    · rw [if_pos h0]
      have hnil : bytes = [] := List.eq_nil_of_length_eq_zero (by omega)
      simp [hnil]
    · rw [if_neg h0]
      have hdata : (bytes.drop 0).take (bytes.length - 0) = bytes := by
        simp
      rw [hdata]
      have heof : decide (0 + bytes.length ≥ bytes.length) = true := by
        simp
      simp [heof]
  · intro hoff
    rw [read_file_spec, if_pos hoff]
  · intro chunk hchunk
    rw [read_file_spec] at hchunk
    split at hchunk
    · cases hchunk
      simp
    · cases hchunk
      simp only [List.length_take, List.length_drop]
      omega
  · intro out hout
    rw [hmain] at hout
    cases hout
    rfl

/-- Claim C3 (witness): a five-byte file read in chunks of two. -/
theorem read_file_chunked_complete_witness :
    0 < 2 ∧ readAll [10, 20, 30, 40, 50] 0 (some 2) 6 = some [10, 20, 30, 40, 50] :=
  ⟨by decide, (read_file_chunked_complete [10, 20, 30, 40, 50] 2 0 (by decide)).1⟩

/-- Exhaustive case analysis of `update_with_progress`: every run falls
into one of twelve outcome shapes, each tying the produced trace,
result and filesystem effects to the environment condition that caused
it. -/
theorem update_cases (version : Option String) (cv : Nat) (env : UpdateEnv) :
    (∃ e, update_with_progress version cv env =
        ([.fetchingRelease], .error e, noEffects)) ∨
    (version = none ∧ update_with_progress version cv env =
        ([.fetchingRelease, .alreadyUpToDate cv],
         .ok ⟨true, "Already up to date", none⟩, noEffects)) ∨
    (∃ f e, env.download = .error e ∧ update_with_progress version cv env =
        ([.fetchingRelease, .downloading f], .error e, noEffects)) ∨
    (∃ f e, env.unpack = .error e ∧ update_with_progress version cv env =
        ([.fetchingRelease, .downloading f, .unpacking], .error e, noEffects)) ∨
    (∃ f, env.binExists = false ∧ update_with_progress version cv env =
        ([.fetchingRelease, .downloading f, .unpacking, .verifying,
          .failed (binNotFoundMsg env)], .error (binNotFoundMsg env), noEffects)) ∨
    (∃ f, env.sigExists = false ∧ update_with_progress version cv env =
        ([.fetchingRelease, .downloading f, .unpacking, .verifying,
          .failed (sigNotFoundMsg env)], .error (sigNotFoundMsg env), noEffects)) ∨
    (∃ f e, env.verify = .error e ∧ update_with_progress version cv env =
        ([.fetchingRelease, .downloading f, .unpacking, .verifying],
         .error e, noEffects)) ∨
    (∃ f, env.verify = .ok false ∧ update_with_progress version cv env =
        ([.fetchingRelease, .downloading f, .unpacking, .verifying,
          .failed "Signature verification failed"],
         .error "Signature verification failed", noEffects)) ∨
    (∃ f e, env.verify = .ok true ∧ update_with_progress version cv env =
        ([.fetchingRelease, .downloading f, .unpacking, .verifying, .installing],
         .error e, noEffects)) ∨
    (∃ f e, env.verify = .ok true ∧ update_with_progress version cv env =
        ([.fetchingRelease, .downloading f, .unpacking, .verifying, .installing],
         .error e, ⟨true, false, false⟩)) ∨
    (∃ f e, env.verify = .ok true ∧ update_with_progress version cv env =
        ([.fetchingRelease, .downloading f, .unpacking, .verifying, .installing],
         .error e, ⟨true, true, false⟩)) ∨
    (∃ f tag, env.verify = .ok true ∧ update_with_progress version cv env =
        ([.fetchingRelease, .downloading f, .unpacking, .verifying, .installing,
          .completed tag],
         .ok ⟨true, s!"Updated to version {tag}", some tag⟩, ⟨true, true, true⟩)) := by
  rcases hf : env.fetch with e | rel
  · exact Or.inl ⟨e, by simp [update_with_progress, hf]⟩
  · obtain ⟨tagName, assets⟩ := rel
    rcases tagName with _ | tag
    · exact Or.inl ⟨"release response missing tag_name", by simp [update_with_progress, hf]⟩
    by_cases hsc : (version.isNone &&
        (match parse_u32 tag with
         | some n => decide (n ≤ cv)
         | none => false)) = true
    · refine Or.inr (Or.inl ⟨?_, ?_⟩)
      · cases version with
        | none => rfl
        | some v => simp at hsc
      · simp [update_with_progress, hf, hsc]
    rcases assets with _ | assets
    · exact Or.inl ⟨"no assets found", by simp [update_with_progress, hf, hsc]⟩
    rcases hsel : selectAsset assets env.osName with _ | asset
    · exact Or.inl ⟨s!"no asset found for os: {env.osName}",
        by simp [update_with_progress, hf, hsc, hsel]⟩
    obtain ⟨aname, aurl⟩ := asset
    rcases aurl with _ | url
    · exact Or.inl ⟨"no download url found", by simp [update_with_progress, hf, hsc, hsel]⟩
    rcases hdl : env.download with e | u
    · refine Or.inr (Or.inr (Or.inl ⟨aname.getD "downloaded_binary", e, rfl, ?_⟩))
      simp [update_with_progress, hf, hsc, hsel, hdl]
    rcases hup : env.unpack with e | u2
    · refine Or.inr (Or.inr (Or.inr (Or.inl ⟨aname.getD "downloaded_binary", e, rfl, ?_⟩)))
      simp [update_with_progress, hf, hsc, hsel, hdl, hup]
    rcases hbe : env.binExists with _ | _
    · refine Or.inr (Or.inr (Or.inr (Or.inr (Or.inl
        ⟨aname.getD "downloaded_binary", rfl, ?_⟩))))
      simp [update_with_progress, hf, hsc, hsel, hdl, hup, hbe]
    rcases hse : env.sigExists with _ | _
    · refine Or.inr (Or.inr (Or.inr (Or.inr (Or.inr (Or.inl
        ⟨aname.getD "downloaded_binary", rfl, ?_⟩)))))
      simp [update_with_progress, hf, hsc, hsel, hdl, hup, hbe, hse]
    rcases hv : env.verify with e | b
    · refine Or.inr (Or.inr (Or.inr (Or.inr (Or.inr (Or.inr (Or.inl
        ⟨aname.getD "downloaded_binary", e, rfl, ?_⟩))))))
      simp [update_with_progress, hf, hsc, hsel, hdl, hup, hbe, hse, hv]
    rcases b with _ | _
    · refine Or.inr (Or.inr (Or.inr (Or.inr (Or.inr (Or.inr (Or.inr (Or.inl
        ⟨aname.getD "downloaded_binary", rfl, ?_⟩)))))))
      simp [update_with_progress, hf, hsc, hsel, hdl, hup, hbe, hse, hv]
    rcases hcp : env.copyToBin with e | u3
    · refine Or.inr (Or.inr (Or.inr (Or.inr (Or.inr (Or.inr (Or.inr (Or.inr (Or.inl
        ⟨aname.getD "downloaded_binary", e, rfl, ?_⟩))))))))
      simp [update_with_progress, hf, hsc, hsel, hdl, hup, hbe, hse, hv, hcp]
    rcases hrb : env.removeBin with e | u4
    · refine Or.inr (Or.inr (Or.inr (Or.inr (Or.inr (Or.inr (Or.inr (Or.inr (Or.inr
        (Or.inl ⟨aname.getD "downloaded_binary", e, rfl, ?_⟩)))))))))
      simp [update_with_progress, hf, hsc, hsel, hdl, hup, hbe, hse, hv, hcp, hrb]
    rcases hrs : env.removeSig with e | u5
    · refine Or.inr (Or.inr (Or.inr (Or.inr (Or.inr (Or.inr (Or.inr (Or.inr (Or.inr
        (Or.inr (Or.inl ⟨aname.getD "downloaded_binary", e, rfl, ?_⟩))))))))))
      simp [update_with_progress, hf, hsc, hsel, hdl, hup, hbe, hse, hv, hcp, hrb, hrs]
    refine Or.inr (Or.inr (Or.inr (Or.inr (Or.inr (Or.inr (Or.inr (Or.inr (Or.inr
      (Or.inr (Or.inr ⟨aname.getD "downloaded_binary", tag, rfl, ?_⟩))))))))))
    simp [update_with_progress, hf, hsc, hsel, hdl, hup, hbe, hse, hv, hcp, hrb, hrs]

/-- Claim C5: if signature verification of the downloaded binary fails
during an update that reached the verification stage, the updater emits
`UpdateProgress::Failed("Signature verification failed")` as the last
event, aborts with that error, and performs no filesystem change: no
copy into `bin/`, and neither the staging binary nor the `.sig` file is
deleted. -/
theorem update_signature_failure (version : Option String) (cv : Nat)
    (env : UpdateEnv) (hbin : env.binExists = true) (hsig : env.sigExists = true)
    (hver : env.verify = .ok false)
    (hreach : UpdateProgress.verifying ∈ (update_with_progress version cv env).1) :
    (update_with_progress version cv env).1.getLast? =
      some (.failed "Signature verification failed") ∧
    (update_with_progress version cv env).2.1 =
      .error "Signature verification failed" ∧
    (update_with_progress version cv env).2.2 = noEffects := by
  rcases update_cases version cv env with
    ⟨e, hu⟩ | ⟨hv0, hu⟩ | ⟨f, e, hd, hu⟩ | ⟨f, e, hup, hu⟩ | ⟨f, hbe, hu⟩ |
    ⟨f, hse, hu⟩ | ⟨f, e, hvv, hu⟩ | ⟨f, hvv, hu⟩ | ⟨f, e, hvv, hu⟩ |
    ⟨f, e, hvv, hu⟩ | ⟨f, e, hvv, hu⟩ | ⟨f, tag, hvv, hu⟩
  · rw [hu] at hreach; simp at hreach
  · rw [hu] at hreach; simp at hreach
  · rw [hu] at hreach; simp at hreach
  · rw [hu] at hreach; simp at hreach
  · rw [hbin] at hbe; exact absurd hbe (by decide)
  · rw [hsig] at hse; exact absurd hse (by decide)
  · rw [hver] at hvv; simp at hvv
  · rw [hu]; exact ⟨rfl, rfl, rfl⟩
  · rw [hver] at hvv; simp at hvv
  · rw [hver] at hvv; simp at hvv
  · rw [hver] at hvv; simp at hvv
  · rw [hver] at hvv; simp at hvv

/-- Claim C5 (witness): the concrete tampered-signature environment. -/
theorem update_signature_failure_witness :
    UpdateProgress.verifying ∈ (update_with_progress none 41 envUpdateSigFail).1 ∧
    (update_with_progress none 41 envUpdateSigFail).1.getLast? =
      some (.failed "Signature verification failed") :=
  ⟨by decide,
   (update_signature_failure none 41 envUpdateSigFail rfl rfl rfl (by decide)).1⟩

/-- Claim C6 (counterexample): a download failure aborts the update
with an error but emits no `Failed` event at all — the callback sees
only {FetchingRelease, Downloading} — contradicting "every stage error
terminates the stream with Failed". -/
theorem update_download_error_no_failed_event :
    update_with_progress none 41 envUpdateDlFail =
      ([.fetchingRelease, .downloading "puppynet-linux.tar.gz"],
       .error "network down", noEffects) ∧
    UpdateProgress.failed "network down" ∉
      (update_with_progress none 41 envUpdateDlFail).1 := by decide

/-- Claim C6 (amended): the event sequence delivered to the progress
callback is always a prefix of {Fetching → (AlreadyUpToDate |
Downloading → Unpacking → Verifying → Installing → Completed)},
optionally terminated by a single `Failed` event (which only occurs
right after `Verifying`); a `Failed`, `Completed` or `AlreadyUpToDate`
event is always the last event.  Stage errors at the fetch, asset
selection, download, unpack and install steps return an error *without*
emitting `Failed` (the stream simply ends on a stage prefix); only the
missing-binary, missing-signature and failed-verification checks emit
`Failed`. -/
theorem update_stage_order (version : Option String) (cv : Nat) (env : UpdateEnv) :
    ValidUpdateTrace cv (update_with_progress version cv env).1 ∧
    (∀ e, UpdateProgress.failed e ∈ (update_with_progress version cv env).1 →
      (update_with_progress version cv env).1.getLast? = some (.failed e)) := by
  rcases update_cases version cv env with
    ⟨e, hu⟩ | ⟨hv0, hu⟩ | ⟨f, e, hd, hu⟩ | ⟨f, e, hup, hu⟩ | ⟨f, hbe, hu⟩ |
    ⟨f, hse, hu⟩ | ⟨f, e, hvv, hu⟩ | ⟨f, hvv, hu⟩ | ⟨f, e, hvv, hu⟩ |
    ⟨f, e, hvv, hu⟩ | ⟨f, e, hvv, hu⟩ | ⟨f, tag, hvv, hu⟩ <;> rw [hu]
  · exact ⟨⟨"f", "t", Or.inl (by simp [stagePrefixes])⟩,
      fun e' he' => by simp at he'⟩
  · exact ⟨⟨"f", "t", Or.inl (by simp [stagePrefixes])⟩,
      fun e' he' => by simp at he'⟩
  · exact ⟨⟨f, "t", Or.inl (by simp [stagePrefixes])⟩,
      fun e' he' => by simp at he'⟩
  · exact ⟨⟨f, "t", Or.inl (by simp [stagePrefixes])⟩,
      fun e' he' => by simp at he'⟩
  · exact ⟨⟨f, "t", Or.inr ⟨binNotFoundMsg env, rfl⟩⟩,
      fun e' he' => by simp at he'; simp [he']⟩
  · exact ⟨⟨f, "t", Or.inr ⟨sigNotFoundMsg env, rfl⟩⟩,
      fun e' he' => by simp at he'; simp [he']⟩
  · exact ⟨⟨f, "t", Or.inl (by simp [stagePrefixes])⟩,
      fun e' he' => by simp at he'⟩
  · exact ⟨⟨f, "t", Or.inr ⟨"Signature verification failed", rfl⟩⟩,
      fun e' he' => by simp at he'; simp [he']⟩
  · exact ⟨⟨f, "t", Or.inl (by simp [stagePrefixes])⟩,
      fun e' he' => by simp at he'⟩
  · exact ⟨⟨f, "t", Or.inl (by simp [stagePrefixes])⟩,
      fun e' he' => by simp at he'⟩
  · exact ⟨⟨f, "t", Or.inl (by simp [stagePrefixes])⟩,
      fun e' he' => by simp at he'⟩
  · exact ⟨⟨f, tag, Or.inl (by simp [stagePrefixes])⟩,
      fun e' he' => by simp at he'⟩

/-- Claim C7: with no explicit version and a release tag that parses as
a u32 at most the current version, the updater emits `AlreadyUpToDate`
and returns success with `new_version = None`, performing no download,
verification or install (trace `[FetchingRelease, AlreadyUpToDate]`,
no filesystem effects); with an explicit requested version the
comparison is skipped: `AlreadyUpToDate` is never emitted. -/
theorem update_already_up_to_date (cv : Nat) (env : UpdateEnv) (rel : Release)
    (tag : String) (n : Nat)
    (hfetch : env.fetch = .ok rel) (htag : rel.tagName = some tag)
    (hparse : parse_u32 tag = some n) (hle : n ≤ cv) :
    update_with_progress none cv env =
      ([.fetchingRelease, .alreadyUpToDate cv],
       .ok ⟨true, "Already up to date", none⟩, noEffects) ∧
    ∀ v c, UpdateProgress.alreadyUpToDate c ∉
      (update_with_progress (some v) cv env).1 := by
  constructor
  · obtain ⟨tagName, assets⟩ := rel
    have htn : tagName = some tag := htag
    subst htn
    simp [update_with_progress, hfetch, hparse, decide_eq_true hle]
  · intro v c
    rcases update_cases (some v) cv env with
      ⟨e, hu⟩ | ⟨hv0, hu⟩ | ⟨f, e, hd, hu⟩ | ⟨f, e, hup, hu⟩ | ⟨f, hbe, hu⟩ |
      ⟨f, hse, hu⟩ | ⟨f, e, hvv, hu⟩ | ⟨f, hvv, hu⟩ | ⟨f, e, hvv, hu⟩ |
      ⟨f, e, hvv, hu⟩ | ⟨f, e, hvv, hu⟩ | ⟨f, tg, hvv, hu⟩
    · rw [hu]; simp
    · simp at hv0
    all_goals rw [hu]; simp

/-- Claim C7 (witness): current version 42, release tag "42". -/
theorem update_already_up_to_date_witness :
    parse_u32 "42" = some 42 ∧
    update_with_progress none 42 envUpdateOk =
      ([.fetchingRelease, .alreadyUpToDate 42],
       .ok ⟨true, "Already up to date", none⟩, noEffects) :=
  ⟨by decide,
   (update_already_up_to_date 42 envUpdateOk
     ⟨some "42", some [⟨some "puppynet-linux.tar.gz", some "https://example/dl"⟩]⟩
     "42" 42 rfl rfl (by decide) (by decide)).1⟩

end PuppyNet
